import Mathlib

/-!
Verification of the GroupModeratorProBot moderation core.

This development shallowly embeds the moderation logic of the bot:

* the warning ledger (`database.py`: `add_warning`, `reset_warnings`;
  `handlers/warnings.py`: `warn_user`),
* the antiflood sliding window (`handlers/locks.py`: `antiflood_checker`),
* the content-lock evaluator (`handlers/locks.py`: `lock_checker`),
* link normalization and the allowlist (`handlers/allowed_links.py`:
  `normalize_domain`, `is_link_allowed`),
* the force-subscription gate (`handlers/force_sub.py`:
  `check_subscription`, `force_sub_check`).

Python exceptions of external calls (Telegram API, MongoDB) are modelled by
explicit boolean failure flags; the MongoDB document for a (chat, user) key
is modelled by an `Option WarningRecord`.  Timestamps are integers.
-/

/-! ## Warning ledger (database.py, handlers/warnings.py) -/

/-- One entry of the `warnings` array pushed by `Database.add_warning`. -/
structure WarnEntry where
  warnedBy : Int
  reason : Option String
  timestamp : Int
deriving Repr, DecidableEq

/-- The MongoDB document for one (user, chat) key of the `warnings`
collection: a running `count` and the pushed history. -/
structure WarningRecord where
  count : Nat
  warnings : List WarnEntry
deriving Repr, DecidableEq

/-- `Database.add_warning`: `update_one` with `$push`/`$inc` and
`upsert=True`, then `find_one` to read the new count; the surrounding
`try/except` returns `0` on any exception.  `updFails` models an exception
raised by `update_one` (state unchanged), `readFails` an exception raised
by the subsequent `find_one` (state already updated).  Returns the new
store state and the Python return value. -/
def add_warning (warnedBy : Int) (reason : Option String) (ts : Int)
    (updFails readFails : Bool) (st : Option WarningRecord) :
    Option WarningRecord × Nat :=
  if updFails then (st, 0)
  else
    let r : WarningRecord :=
      match st with
      | none => ⟨1, [⟨warnedBy, reason, ts⟩]⟩
      | some r0 => ⟨r0.count + 1, r0.warnings ++ [⟨warnedBy, reason, ts⟩]⟩
    if readFails then (some r, 0) else (some r, r.count)

/-- `Database.reset_warnings`: `delete_one` for the key (success path). -/
def reset_warnings (_st : Option WarningRecord) : Option WarningRecord :=
  none

/-- The warning count currently stored for a key (0 when no document). -/
def ledgerCount (st : Option WarningRecord) : Nat :=
  match st with
  | none => 0
  | some r => r.count

/-- The per-chat warning configuration read from settings. -/
inductive WarnAction
  | ban
  | kick
  | mute
deriving Repr, DecidableEq

structure WarnCfg where
  maxWarnings : Nat
  warnAction : WarnAction
deriving Repr, DecidableEq

/-- Core of `warn_user` (handlers/warnings.py): call `add_warning`, then if
`warn_count >= max_warnings` execute the configured action and, on its
success, `reset_warnings`.  `actionFails` models the Telegram call raising:
control jumps to the `except` branch and `reset_warnings` is never reached.
Returns the new ledger state and the escalation event (the action that was
actually executed), if any. -/
def warn_user_step (cfg : WarnCfg) (warnedBy : Int) (reason : Option String)
    (ts : Int) (updFails readFails actionFails : Bool)
    (st : Option WarningRecord) : Option WarningRecord × Option WarnAction :=
  let r := add_warning warnedBy reason ts updFails readFails st
  if cfg.maxWarnings ≤ r.2 then
    if actionFails then (r.1, none)
    else (reset_warnings r.1, some cfg.warnAction)
  else (r.1, none)

/-- Ledger state after `k` successful `/warn` invocations from a clean
start: `none` for `k = 0`, otherwise a record with count `k` and `k`
identical history entries. -/
def cleanLedger (k : Nat) : Option WarningRecord :=
  match k with
  | 0 => none
  | Nat.succ n => some ⟨n + 1, List.replicate (n + 1) ⟨1, none, 0⟩⟩

/-- Runs `n` fault-free `warn_user` invocations from the empty ledger and
counts the escalation events that were emitted. -/
def warn_run (cfg : WarnCfg) : Nat → Option WarningRecord × Nat
  | 0 => (none, 0)
  | Nat.succ n =>
    let p := warn_run cfg n
    let s := warn_user_step cfg 1 none 0 false false false p.1
    (s.1, p.2 + (if s.2.isSome then 1 else 0))

theorem add_warning_ok (w : Int) (r : Option String) (t : Int)
    (st : Option WarningRecord) :
    add_warning w r t false false st =
      (match st with
       | none => (some ⟨1, [⟨w, r, t⟩]⟩, 1)
       | some r0 => (some ⟨r0.count + 1, r0.warnings ++ [⟨w, r, t⟩]⟩,
                     r0.count + 1)) := by
  cases st <;> rfl

theorem warn_run_below (cfg : WarnCfg) (k : Nat) (hk : k < cfg.maxWarnings) :
    warn_run cfg k = (cleanLedger k, 0) := by
  induction k with
  | zero => rfl
  | succ n ih =>
    have hn : n < cfg.maxWarnings := Nat.lt_of_succ_lt hk
    have hstep :
        warn_user_step cfg 1 none 0 false false false (cleanLedger n) =
          (cleanLedger (n + 1), none) := by
      cases n with
      | zero =>
        simp only [cleanLedger, warn_user_step, add_warning]
        have : ¬ cfg.maxWarnings ≤ 1 := by omega
        simp [this, List.replicate]
      | succ m =>
        simp only [cleanLedger, warn_user_step, add_warning]
        have : ¬ cfg.maxWarnings ≤ m + 1 + 1 := by omega
        simp [this, List.replicate_succ']
    simp [warn_run, ih hn, hstep]

theorem warn_step_at_max (cfg : WarnCfg) (h1 : 1 ≤ cfg.maxWarnings) :
    warn_user_step cfg 1 none 0 false false false
        (cleanLedger (cfg.maxWarnings - 1)) = (none, some cfg.warnAction) := by
  rcases hm : cfg.maxWarnings - 1 with _ | n
  · have hmax : cfg.maxWarnings = 1 := by omega
    simp [cleanLedger, warn_user_step, add_warning, reset_warnings, hmax]
  · have hmax : cfg.maxWarnings = n + 2 := by omega
    simp [cleanLedger, warn_user_step, add_warning, reset_warnings, hmax]

/-- C1: with `maxWarnings = m` (`1 ≤ m ≤ 10`), a sequence of `m` fault-free
`warn_user` invocations starting from an empty ledger emits no escalation
event on the first `m - 1` calls, emits exactly one escalation event
carrying the configured `warn_action` on the `m`-th call, and resets the
ledger, so that a further `add_warning` returns count 1. -/
theorem C1_warning_escalation (cfg : WarnCfg) (m : Nat)
    (hm : cfg.maxWarnings = m) (h1 : 1 ≤ m) (h10 : m ≤ 10) :
    (∀ k, k < m → (warn_run cfg k).2 = 0) ∧
    (warn_user_step cfg 1 none 0 false false false
        (warn_run cfg (m - 1)).1).2 = some cfg.warnAction ∧
    warn_run cfg m = (reset_warnings (warn_run cfg (m - 1)).1, 1) ∧
    (add_warning 1 none 0 false false (warn_run cfg m).1).2 = 1 := by
  subst hm
  have hprev : warn_run cfg (cfg.maxWarnings - 1) =
      (cleanLedger (cfg.maxWarnings - 1), 0) :=
    warn_run_below cfg _ (by omega)
  have hstep := warn_step_at_max cfg h1
  refine ⟨fun k hk => by rw [warn_run_below cfg k hk], ?_, ?_, ?_⟩
  · rw [hprev, hstep]
  · have hsucc : cfg.maxWarnings = (cfg.maxWarnings - 1) + 1 := by omega
    rw [hsucc]
    simp [warn_run, hprev, hstep, reset_warnings]
  · have hsucc : cfg.maxWarnings = (cfg.maxWarnings - 1) + 1 := by omega
    rw [hsucc]
    simp [warn_run, hprev, hstep, reset_warnings, add_warning]

theorem C1_warning_escalation_witness :
    (∀ k, k < 3 → (warn_run ⟨3, WarnAction.ban⟩ k).2 = 0) ∧
    (warn_user_step ⟨3, WarnAction.ban⟩ 1 none 0 false false false
        (warn_run ⟨3, WarnAction.ban⟩ 2).1).2 = some WarnAction.ban ∧
    warn_run ⟨3, WarnAction.ban⟩ 3 =
      (reset_warnings (warn_run ⟨3, WarnAction.ban⟩ 2).1, 1) ∧
    (add_warning 1 none 0 false false (warn_run ⟨3, WarnAction.ban⟩ 3).1).2
      = 1 :=
  C1_warning_escalation ⟨3, WarnAction.ban⟩ 3 rfl (by decide) (by decide)

/-- C3 counterexample: `maxWarnings = 3`, ledger at count 2, the third
warning's ban call raises.  In `warn_user` the `reset_warnings` call sits
inside the `try` block *after* the Telegram action, so the exception skips
it: the ledger keeps count 3 instead of being reset to 0, and the very next
fault-free warning escalates again.  The claim that the ledger is reset as
if the action had succeeded is therefore false. -/
theorem C3_counterexample :
    ledgerCount
        (warn_user_step ⟨3, WarnAction.ban⟩ 1 none 0 false false true
          (some ⟨2, []⟩)).1 = 3 ∧
    (warn_user_step ⟨3, WarnAction.ban⟩ 1 none 0 false false true
        (some ⟨2, []⟩)).2 = none ∧
    (warn_user_step ⟨3, WarnAction.ban⟩ 1 none 0 false false false
        (warn_user_step ⟨3, WarnAction.ban⟩ 1 none 0 false false true
          (some ⟨2, []⟩)).1).2 = some WarnAction.ban := by
  refine ⟨rfl, rfl, rfl⟩

theorem add_warning_count (w : Int) (r : Option String) (t : Int)
    (st : Option WarningRecord) :
    (add_warning w r t false false st).2 = ledgerCount st + 1 := by
  cases st <;> rfl

theorem add_warning_ledger (w : Int) (r : Option String) (t : Int)
    (st : Option WarningRecord) :
    ledgerCount (add_warning w r t false false st).1 = ledgerCount st + 1 := by
  cases st <;> rfl

theorem warn_step_escalate (cfg : WarnCfg) (w : Int) (r : Option String)
    (t : Int) (st : Option WarningRecord)
    (h : cfg.maxWarnings ≤ ledgerCount st + 1) :
    warn_user_step cfg w r t false false false st =
      (none, some cfg.warnAction) := by
  simp only [warn_user_step, add_warning_count]
  rw [if_pos h, if_neg (by simp)]
  rfl

/-- C3 amended: when the warning threshold is reached but the punitive
action raises, `reset_warnings` is *not* executed: the ledger keeps the
incremented count, no escalation event is completed, and the next
fault-free warning triggers the configured action again (escalation is
re-armed, contrary to the spec's claimed trade-off). -/
theorem C3_action_failure_keeps_ledger (cfg : WarnCfg) (w w' : Int)
    (r r' : Option String) (t t' : Int) (st : Option WarningRecord)
    (hmax : cfg.maxWarnings ≤ (add_warning w r t false false st).2) :
    warn_user_step cfg w r t false false true st =
      ((add_warning w r t false false st).1, none) ∧
    ledgerCount (warn_user_step cfg w r t false false true st).1 =
      ledgerCount st + 1 ∧
    (warn_user_step cfg w' r' t' false false false
        (warn_user_step cfg w r t false false true st).1).2 =
      some cfg.warnAction := by
  have h1 : warn_user_step cfg w r t false false true st =
      ((add_warning w r t false false st).1, none) := by
    simp [warn_user_step, hmax]
  rw [add_warning_count] at hmax
  refine ⟨h1, ?_, ?_⟩
  · rw [h1, add_warning_ledger]
  · rw [h1]
    have h2 : cfg.maxWarnings ≤
        ledgerCount (add_warning w r t false false st).1 + 1 := by
      rw [add_warning_ledger]
      omega
    rw [warn_step_escalate cfg w' r' t' _ h2]

theorem C3_action_failure_keeps_ledger_witness :
    warn_user_step ⟨3, WarnAction.ban⟩ 1 none 0 false false true
        (some ⟨2, []⟩) =
      ((add_warning 1 none 0 false false (some ⟨2, []⟩)).1, none) ∧
    ledgerCount
        (warn_user_step ⟨3, WarnAction.ban⟩ 1 none 0 false false true
          (some ⟨2, []⟩)).1 =
      ledgerCount (some ⟨2, []⟩) + 1 ∧
    (warn_user_step ⟨3, WarnAction.ban⟩ 2 none 1 false false false
        (warn_user_step ⟨3, WarnAction.ban⟩ 1 none 0 false false true
          (some ⟨2, []⟩)).1).2 = some WarnAction.ban :=
  C3_action_failure_keeps_ledger ⟨3, WarnAction.ban⟩ 1 2 none none 0 1
    (some ⟨2, []⟩) (by decide)

/-- C10: when the `update_one` inside `add_warning` raises, the function
returns 0 and leaves the store unchanged, and since `0 < maxWarnings`
(which is at least 1), `warn_user` records no escalation: the violation is
silently dropped. -/
theorem C10_storage_failure_drops_warning (cfg : WarnCfg) (w : Int)
    (r : Option String) (t : Int) (af : Bool) (st : Option WarningRecord)
    (hmax : 1 ≤ cfg.maxWarnings) :
    add_warning w r t true false st = (st, 0) ∧
    warn_user_step cfg w r t true false af st = (st, none) := by
  have h0 : add_warning w r t true false st = (st, 0) := rfl
  refine ⟨h0, ?_⟩
  have : ¬ cfg.maxWarnings ≤ 0 := by omega
  simp [warn_user_step, h0, this]

theorem C10_storage_failure_drops_warning_witness :
    add_warning 1 none 0 true false (some ⟨2, []⟩) = (some ⟨2, []⟩, 0) ∧
    warn_user_step ⟨3, WarnAction.ban⟩ 1 none 0 true false false
        (some ⟨2, []⟩) = (some ⟨2, []⟩, none) :=
  C10_storage_failure_drops_warning ⟨3, WarnAction.ban⟩ 1 none 0 false
    (some ⟨2, []⟩) (by decide)

/-! ## Antiflood sliding window (handlers/locks.py, antiflood_checker) -/

/-- The pruned timestamp list after appending the current message: the
source keeps exactly the timestamps with `ts > now - flood_time`. -/
def floodPruned (W : Int) (fs : List Int) (now : Int) : List Int :=
  (fs ++ [now]).filter (fun t => decide (now - W < t))

/-- The flood-detection core of `antiflood_checker`: append `now`, drop
old timestamps, signal flooding when the remaining count is strictly
greater than the limit; on flooding (and successful enforcement) the
tracker for the user is cleared. -/
def recordAndCheck (L : Nat) (W : Int) (fs : List Int) (now : Int) :
    List Int × Bool :=
  let pruned := floodPruned W fs now
  if L < pruned.length then ([], true) else (pruned, false)

/-- A claim-faithful rendering of the spec's words for C2: drop only the
entries *older than* `now − window` (keep a timestamp exactly at the window
boundary), then signal exceeded when the remaining count is strictly
greater than the limit. -/
def recordAndCheckSpec (L : Nat) (W : Int) (fs : List Int) (now : Int) :
    List Int × Bool :=
  let pruned := (fs ++ [now]).filter (fun t => decide (now - W ≤ t))
  if L < pruned.length then ([], true) else (pruned, false)

/-- State after `k` messages of a constant-rate burst (all at time `now`),
starting from an empty tracker. -/
def floodBurst (L : Nat) (W now : Int) : Nat → List Int × Bool
  | 0 => ([], false)
  | Nat.succ k => recordAndCheck L W (floodBurst L W now k).1 now

theorem filter_replicate_true {p : Int → Bool} {a : Int} (h : p a = true)
    (n : Nat) : (List.replicate n a).filter p = List.replicate n a := by
  induction n with
  | zero => rfl
  | succ k ih => simp [List.replicate_succ, h, ih]

theorem floodBurst_below (L : Nat) (W now : Int) (hW : 1 ≤ W) :
    ∀ k, k ≤ L → (floodBurst L W now k).1 = List.replicate k now := by
  intro k
  induction k with
  | zero => intro _; rfl
  | succ n ih =>
    intro hk
    have hs : (floodBurst L W now n).1 = List.replicate n now :=
      ih (by omega)
    have hpred : (fun t => decide (now - W < t)) now = true := by
      simp
      omega
    have hpruned : floodPruned W (List.replicate n now) now =
        List.replicate (n + 1) now := by
      rw [floodPruned, ← List.replicate_succ' n now,
        filter_replicate_true hpred]
    simp only [floodBurst, recordAndCheck, hs, hpruned]
    rw [if_neg (by simp [List.length_replicate]; omega)]

theorem floodBurst_flag_below (L : Nat) (W now : Int) (hW : 1 ≤ W) :
    ∀ k, k + 1 ≤ L → (floodBurst L W now (k + 1)).2 = false := by
  intro k hk
  have hs := floodBurst_below L W now hW k (by omega)
  have hpred : (fun t => decide (now - W < t)) now = true := by
    simp
    omega
  have hpruned : floodPruned W (List.replicate k now) now =
      List.replicate (k + 1) now := by
    rw [floodPruned, ← List.replicate_succ' k now,
      filter_replicate_true hpred]
  simp only [floodBurst, recordAndCheck, hs, hpruned]
  rw [if_neg (by simp [List.length_replicate]; omega)]

theorem floodBurst_trigger (L : Nat) (W now : Int) (hW : 1 ≤ W) :
    floodBurst L W now (L + 1) = ([], true) := by
  have hs := floodBurst_below L W now hW L (by omega)
  have hpred : (fun t => decide (now - W < t)) now = true := by
    simp
    omega
  have hpruned : floodPruned W (List.replicate L now) now =
      List.replicate (L + 1) now := by
    rw [floodPruned, ← List.replicate_succ' L now,
      filter_replicate_true hpred]
  simp only [floodBurst, recordAndCheck, hs, hpruned]
  rw [if_pos (by simp [List.length_replicate])]

/-- C2 counterexample: limit 1, window 10 seconds, messages at times 0 and
10.  The first message is stored; at the second, the claim's prune ("drop
entries older than now − W") keeps the boundary entry `0 = now − W`, so
the remaining count is 2 > 1 and the claim demands an `exceeded` signal —
but the source keeps only timestamps with `ts > now − W`, prunes the entry
at the boundary, and does not signal.  `recordAndCheckSpec` renders the
claim's own words and disagrees with the code at this input. -/
theorem C2_counterexample :
    recordAndCheck 1 10 [] 0 = ([0], false) ∧
    (recordAndCheck 1 10 [0] 10).2 = false ∧
    recordAndCheckSpec 1 10 [0] 10 = ([], true) := by
  refine ⟨by decide, by decide, by decide⟩

/-- C2 amended: the flood check appends the current timestamp and keeps
exactly the entries *strictly newer* than `now − W` (an entry exactly `W`
old is pruned as well); `exceeded` is signalled iff the remaining count is
strictly greater than `L`, and on `exceeded` the tracker is cleared.  In a
burst at one instant, the first `L` messages do not trigger, the
`(L+1)`-th does, and the message after the cleared burst starts a fresh
count without triggering. -/
theorem C2_flood_window (L : Nat) (W : Int) (fs : List Int) (now : Int)
    (hL : 1 ≤ L) (hW : 1 ≤ W) :
    ((recordAndCheck L W fs now).2 = true ↔
      L < ((fs ++ [now]).filter (fun t => decide (now - W < t))).length) ∧
    ((recordAndCheck L W fs now).2 = true →
      (recordAndCheck L W fs now).1 = []) ∧
    ((recordAndCheck L W fs now).2 = false →
      (recordAndCheck L W fs now).1 =
        (fs ++ [now]).filter (fun t => decide (now - W < t))) ∧
    (∀ k, 1 ≤ k → k ≤ L → (floodBurst L W now k).2 = false) ∧
    floodBurst L W now (L + 1) = ([], true) ∧
    (recordAndCheck L W (floodBurst L W now (L + 1)).1 now).2 = false := by
  refine ⟨?_, ?_, ?_, ?_, floodBurst_trigger L W now hW, ?_⟩
  · rw [recordAndCheck, floodPruned]
    by_cases h : L < ((fs ++ [now]).filter (fun t => decide (now - W < t))).length
    · rw [if_pos h]
      exact iff_of_true rfl h
    · rw [if_neg h]
      exact iff_of_false (by simp) h
  · rw [recordAndCheck]
    split
    · simp
    · simp
  · rw [recordAndCheck, floodPruned]
    split
    · simp
    · simp
  · intro k hk1 hkL
    obtain ⟨n, hn⟩ : ∃ n, k = n + 1 := ⟨k - 1, by omega⟩
    subst hn
    exact floodBurst_flag_below L W now hW n (by omega)
  · rw [floodBurst_trigger L W now hW]
    have hpred : (fun t => decide (now - W < t)) now = true := by
      simp
      omega
    simp only [recordAndCheck, floodPruned, List.nil_append,
      List.filter_cons, hpred, List.filter_nil]
    rw [if_neg (by simp; omega)]

theorem C2_flood_window_witness :
    ((recordAndCheck 5 10 [] 0).2 = true ↔
      5 < ((([] : List Int) ++ [0]).filter
        (fun t => decide ((0 : Int) - 10 < t))).length) ∧
    ((recordAndCheck 5 10 [] 0).2 = true →
      (recordAndCheck 5 10 [] 0).1 = []) ∧
    ((recordAndCheck 5 10 [] 0).2 = false →
      (recordAndCheck 5 10 [] 0).1 =
        (([] : List Int) ++ [0]).filter
          (fun t => decide ((0 : Int) - 10 < t))) ∧
    (∀ k, 1 ≤ k → k ≤ 5 → (floodBurst 5 10 0 k).2 = false) ∧
    floodBurst 5 10 0 (5 + 1) = ([], true) ∧
    (recordAndCheck 5 10 (floodBurst 5 10 0 (5 + 1)).1 0).2 = false :=
  C2_flood_window 5 10 [] 0 (by decide) (by decide)

/-- The in-memory per-(chat, user) moderation state touched by the
checkers: the warnings document and the `message_tracker` entry. -/
structure PerUserState where
  warnings : Option WarningRecord
  flood : List Int
deriving Repr, DecidableEq

/-- `antiflood_checker` (handlers/locks.py) for one message: skip for
admins (the source consults only `is_user_admin`; the bot owner receives
no special treatment here), skip when antiflood is disabled, otherwise
append `now`, prune, and on flooding mute/delete/notify and clear the
tracker.  `opFails` models an exception from one of the Telegram calls:
the `except` branch skips clearing the tracker.  The `warnings` document
is never touched on this path.  Returns the new state and whether the
flood mute was applied. -/
def antiflood_step (isAdmin enabled opFails : Bool) (L : Nat) (W : Int)
    (st : PerUserState) (now : Int) : PerUserState × Bool :=
  if isAdmin then (st, false)
  else if !enabled then (st, false)
  else
    let pruned := floodPruned W st.flood now
    if L < pruned.length then
      if opFails then (⟨st.warnings, pruned⟩, false)
      else (⟨st.warnings, []⟩, true)
    else (⟨st.warnings, pruned⟩, false)

/-- C7 counterexample: a flood-triggered mute (limit 1, window 10, two
messages at time 0, ledger at count 2).  The mute fires and clears the
flood window, but `antiflood_checker` contains no `reset_warnings` call:
the Warning Ledger still holds count 2, not 0 as the claim demands for
every successful punitive action. -/
theorem C7_counterexample :
    antiflood_step false true false 1 10 ⟨some ⟨2, []⟩, [0]⟩ 0 =
      (⟨some ⟨2, []⟩, []⟩, true) ∧
    ledgerCount
        (antiflood_step false true false 1 10 ⟨some ⟨2, []⟩, [0]⟩ 0).1.warnings
      = 2 := by
  refine ⟨by decide, by decide⟩

/-- C7 amended: a successful warning-triggered action (ban, kick or mute)
resets the Warning Ledger to count 0, and a successful flood-triggered
mute clears that user's Flood Window — but the flood path leaves the
Warning Ledger untouched (it is not reset there). -/
theorem C7_action_reset (cfg : WarnCfg) (w : Int) (r : Option String)
    (t : Int) (stw : Option WarningRecord) (L : Nat) (W : Int)
    (st : PerUserState) (now : Int)
    (hmax : cfg.maxWarnings ≤ ledgerCount stw + 1)
    (hflood : (antiflood_step false true false L W st now).2 = true) :
    warn_user_step cfg w r t false false false stw =
      (none, some cfg.warnAction) ∧
    (antiflood_step false true false L W st now).1 =
      ⟨st.warnings, []⟩ := by
  refine ⟨warn_step_escalate cfg w r t stw hmax, ?_⟩
  by_cases hF : L < (floodPruned W st.flood now).length
  · simp [antiflood_step, hF]
  · exfalso
    simp [antiflood_step, hF] at hflood

theorem C7_action_reset_witness :
    warn_user_step ⟨3, WarnAction.mute⟩ 1 none 0 false false false
        (some ⟨2, []⟩) = (none, some WarnAction.mute) ∧
    (antiflood_step false true false 1 10 ⟨none, [0]⟩ 0).1 =
      ⟨(⟨none, [0]⟩ : PerUserState).warnings, []⟩ :=
  C7_action_reset ⟨3, WarnAction.mute⟩ 1 none 0 (some ⟨2, []⟩) 1 10
    ⟨none, [0]⟩ 0 (by decide) (by decide)

/-! ## URL normalization and the link allowlist
(handlers/allowed_links.py, and the link branch of lock_checker) -/

/-- ASCII lower-casing of a character, as Python's `str.lower` acts on the
ASCII strings relevant here. -/
def lowerChar (c : Char) : Char := c.toLower

/-- Lower-case a string given as its character list. -/
def lowerStr (s : List Char) : List Char := s.map lowerChar

/-- Strips `p` from the front of `s`, or fails: the building block for
Python's `startswith` and slicing. -/
def dropPrefixChars : List Char → List Char → Option (List Char)
  | [], s => some s
  | _ :: _, [] => none
  | a :: p, b :: s => if a = b then dropPrefixChars p s else none

/-- Python's `needle in hay` substring test. -/
def containsSub (needle : List Char) : List Char → Bool
  | [] => (dropPrefixChars needle []).isSome
  | c :: rest =>
    (dropPrefixChars needle (c :: rest)).isSome || containsSub needle rest

/-- `normalize_domain` (handlers/allowed_links.py): prepend `https://`
unless the URL already starts with the *lower-case* `http://` or
`https://` (Python's `startswith` is case-sensitive); take `urlparse`'s
`netloc` (the text between the `://` and the next `/`, `?` or `#`);
`urlparse` raises on unbalanced square brackets in the netloc, in which
case the `except` branch returns the (possibly prepended) URL
lower-cased; otherwise lower-case the netloc and strip one leading
`www.`. -/
def normalize_domain (url : List Char) : List Char :=
  let u :=
    if ((dropPrefixChars ((r"http://").data) url).isSome ||
        (dropPrefixChars ((r"https://").data) url).isSome) then url
    else (r"https://").data ++ url
  let afterScheme :=
    match dropPrefixChars ((r"https://").data) u with
    | some rest => rest
    | none =>
      match dropPrefixChars ((r"http://").data) u with
      | some rest => rest
      | none => u
  let netloc :=
    afterScheme.takeWhile (fun c => !(c = '/' || c = '?' || c = '#'))
  if (netloc.contains '[' != netloc.contains ']') then lowerStr u
  else
    let d := lowerStr netloc
    match dropPrefixChars ((r"www.").data) d with
    | some rest => rest
    | none => d

/-- `is_link_allowed` (handlers/allowed_links.py): normalize the URL and
test membership in the allowlist. -/
def is_link_allowed (url : List Char) (allowed : List (List Char)) : Bool :=
  allowed.contains (normalize_domain url)

/-- C5 counterexample: the claim's own test vector.  `startswith` is
case-sensitive, so `HTTPS://WWW.Example.com/x` gets a second scheme
prepended and the parsed host is the text `HTTPS:`, which normalizes to
`https:` — not `example.com` — and the allowlist check returns `false`,
not `true` as claimed. -/
theorem C5_counterexample :
    is_link_allowed ((r"HTTPS://WWW.Example.com/x").data)
        [(r"example.com").data] = false ∧
    normalize_domain ((r"HTTPS://WWW.Example.com/x").data) =
      (r"https:").data := by
  refine ⟨by decide, by decide⟩

/-- C5 amended: host normalization strips a leading `www.` and
lower-cases, and is case-insensitive in the host and the `www.` prefix,
for URLs whose scheme is already lower-case (or absent, in which case
`https://` is prepended); but the scheme test is case-sensitive, so an
upper-case `HTTPS://` defeats it, the host is misparsed as `https:`, and
`isAllowed("HTTPS://WWW.Example.com/x", {"example.com"})` is `false`, not
`true`. -/
theorem C5_normalize_domain :
    is_link_allowed ((r"https://WWW.Example.com/x").data)
        [(r"example.com").data] = true ∧
    is_link_allowed ((r"http://www.EXAMPLE.com/x").data)
        [(r"example.com").data] = true ∧
    is_link_allowed ((r"WWW.Example.com/x").data)
        [(r"example.com").data] = true ∧
    normalize_domain ((r"https://WWW.Example.com/x").data) =
      (r"example.com").data ∧
    is_link_allowed ((r"HTTPS://WWW.Example.com/x").data)
        [(r"example.com").data] = false := by
  refine ⟨by decide, by decide, by decide, by decide, by decide⟩

/-! ## Content locks (handlers/locks.py, lock_checker) -/

/-- Whitespace for the regex class `\s` (ASCII range). -/
def isSpaceChar (c : Char) : Bool :=
  c = ' ' || c = '\t' || c = '\n' || c = '\x0d' || c = '\x0b' || c = '\x0c'

/-- One match attempt of the pattern `https?://[^\s]+` at the head of `s`:
the literal scheme (the optional `s` is tried greedily, with
backtracking), then a maximal non-empty run of non-whitespace.  Returns
the matched text and the remaining input. -/
def matchUrlAt (s : List Char) : Option (List Char × List Char) :=
  match dropPrefixChars ((r"https://").data) s with
  | some rest =>
    let u := rest.takeWhile (fun c => !(isSpaceChar c))
    if u.isEmpty then none
    else some ((r"https://").data ++ u, rest.drop u.length)
  | none =>
    match dropPrefixChars ((r"http://").data) s with
    | some rest =>
      let u := rest.takeWhile (fun c => !(isSpaceChar c))
      if u.isEmpty then none
      else some ((r"http://").data ++ u, rest.drop u.length)
    | none => none

/-- `re.findall(r'https?://[^\s]+', text)`: left-to-right non-overlapping
scan.  The fuel argument bounds the recursion by the input length; every
step consumes at least one character, so the initial fuel is always
sufficient. -/
def extractUrlsAux : Nat → List Char → List (List Char)
  | 0, _ => []
  | Nat.succ _, [] => []
  | Nat.succ fuel, c :: cs =>
    match matchUrlAt (c :: cs) with
    | some p => p.1 :: extractUrlsAux fuel p.2
    | none => extractUrlsAux fuel cs

def extractUrls (s : List Char) : List (List Char) :=
  extractUrlsAux s.length s

/-- The lock flags of a chat's settings. -/
structure LockSet where
  messages : Bool
  media : Bool
  stickers : Bool
  gifs : Bool
  polls : Bool
  links : Bool
  forwards : Bool
deriving Repr, DecidableEq

/-- The shape of an inbound Telegram message, as probed by
`lock_checker`. -/
structure Msg where
  hasPhoto : Bool
  hasVideo : Bool
  hasAudio : Bool
  hasDocument : Bool
  hasSticker : Bool
  hasAnimation : Bool
  animationFileSize : Nat
  hasPoll : Bool
  text : Option (List Char)
  isForward : Bool
deriving Repr, DecidableEq

inductive Violation
  | messages
  | media
  | stickers
  | gifs
  | polls
  | links
  | forwards
deriving Repr, DecidableEq

def mediaShape (m : Msg) : Bool :=
  m.hasPhoto || m.hasVideo || m.hasAudio || m.hasDocument

def stickerShape (m : Msg) : Bool :=
  m.hasSticker || (m.hasAnimation && decide (0 < m.animationFileSize))

def textChars (m : Msg) : List Char :=
  match m.text with
  | some t => t
  | none => []

/-- Python truthiness of `message.text` (absent or empty are falsy). -/
def textTruthy (m : Msg) : Bool :=
  match m.text with
  | some t => !t.isEmpty
  | none => false

/-- The guard of the `links` branch: `message.text` is truthy and its
lower-cased form contains `http://` or `https://`. -/
def linkGuard (m : Msg) : Bool :=
  textTruthy m &&
    (containsSub ((r"http://").data) (lowerStr (textChars m)) ||
     containsSub ((r"https://").data) (lowerStr (textChars m)))

/-- URLs extracted from the message text by the `links` branch. -/
def msgUrls (m : Msg) : List (List Char) := extractUrls (textChars m)

/-- Whether some extracted URL is not in the allowlist. -/
def hasDisallowed (allowed : List (List Char)) (m : Msg) : Bool :=
  (msgUrls m).any (fun u => !(is_link_allowed u allowed))

/-- The `elif` chain of `lock_checker` (handlers/locks.py) that determines
the reported violation, over the booleans it branches on.  The `links`
branch is terminal: when its guard holds but every URL is allowed, no
later branch is evaluated. -/
def lockCore (lm lme lst lg lp ll lf pm pst pg pp gd dis pf : Bool) :
    Option Violation :=
  if lm then some Violation.messages
  else if lme && pm then some Violation.media
  else if lst && pst then some Violation.stickers
  else if lg && pg then some Violation.gifs
  else if lp && pp then some Violation.polls
  else if ll && gd then
    (if dis then some Violation.links else none)
  else if lf && pf then some Violation.forwards
  else none

/-- The violation `lock_checker` reports for a message (`none` when the
message is left alone). -/
def lock_checker_violation (l : LockSet) (allowed : List (List Char))
    (m : Msg) : Option Violation :=
  lockCore l.messages l.media l.stickers l.gifs l.polls l.links l.forwards
    (mediaShape m) (stickerShape m) m.hasAnimation m.hasPoll
    (linkGuard m) (hasDisallowed allowed m) m.isForward

/-- The lock predicate of each lock type, following the claim's reading:
which message shapes each lock matches (for `links`: the message carries
some disallowed URL). -/
def lockMatches (allowed : List (List Char)) (m : Msg) :
    Violation → Bool
  | Violation.messages => true
  | Violation.media => mediaShape m
  | Violation.stickers => stickerShape m
  | Violation.gifs => m.hasAnimation
  | Violation.polls => m.hasPoll
  | Violation.links => hasDisallowed allowed m
  | Violation.forwards => m.isForward

def lockEnabled (l : LockSet) : Violation → Bool
  | Violation.messages => l.messages
  | Violation.media => l.media
  | Violation.stickers => l.stickers
  | Violation.gifs => l.gifs
  | Violation.polls => l.polls
  | Violation.links => l.links
  | Violation.forwards => l.forwards

/-- The claim's fixed precedence order. -/
def lockOrder : List Violation :=
  [Violation.messages, Violation.media, Violation.stickers, Violation.gifs,
   Violation.polls, Violation.links, Violation.forwards]

/-- The claim-faithful first-match evaluator: the first enabled lock, in
precedence order, whose predicate matches the message. -/
def checkLockSpec (l : LockSet) (allowed : List (List Char)) (m : Msg) :
    Option Violation :=
  lockOrder.find? (fun v => lockEnabled l v && lockMatches allowed m v)

/-- First-match evaluation over the same booleans as `lockCore`, with the
`links` predicate `dis`. -/
def lockSpecCore (lm lme lst lg lp ll lf pm pst pg pp dis pf : Bool) :
    Option Violation :=
  if lm then some Violation.messages
  else if lme && pm then some Violation.media
  else if lst && pst then some Violation.stickers
  else if lg && pg then some Violation.gifs
  else if lp && pp then some Violation.polls
  else if ll && dis then some Violation.links
  else if lf && pf then some Violation.forwards
  else none

theorem checkLockSpec_core (l : LockSet) (allowed : List (List Char))
    (m : Msg) :
    checkLockSpec l allowed m =
      lockSpecCore l.messages l.media l.stickers l.gifs l.polls l.links
        l.forwards (mediaShape m) (stickerShape m) m.hasAnimation m.hasPoll
        (hasDisallowed allowed m) m.isForward := by
  simp only [checkLockSpec, lockOrder, List.find?, lockEnabled, lockMatches,
    lockSpecCore, Bool.and_true]
  rcases l with ⟨lm, lme, lst, lg, lp, ll, lf⟩
  cases lm <;> cases lme <;> cases lst <;> cases lg <;> cases lp <;>
    cases ll <;> cases lf <;>
    simp <;>
    repeat' split <;> simp_all

theorem dropPrefixChars_some (p : List Char) :
    ∀ s r, dropPrefixChars p s = some r → s = p ++ r := by
  induction p with
  | nil =>
    intro s r h
    simp only [dropPrefixChars, Option.some.injEq] at h
    simp [h]
  | cons a p ih =>
    intro s r h
    cases s with
    | nil => simp [dropPrefixChars] at h
    | cons b s' =>
      by_cases hab : a = b
      · subst hab
        simp only [dropPrefixChars, if_pos rfl] at h
        simp [ih s' r h]
      · simp [dropPrefixChars, hab] at h

theorem dropPrefixChars_append (p r : List Char) :
    dropPrefixChars p (p ++ r) = some r := by
  induction p with
  | nil => rfl
  | cons a p ih => simp [dropPrefixChars, ih]

theorem containsSub_head (n h : List Char)
    (hh : (dropPrefixChars n h).isSome = true) : containsSub n h = true := by
  cases h with
  | nil => simpa [containsSub] using hh
  | cons c rest => simp [containsSub, hh]

theorem containsSub_tail (n : List Char) (c : Char) (t : List Char)
    (ht : containsSub n t = true) : containsSub n (c :: t) = true := by
  simp [containsSub, ht]

theorem matchUrlAt_scheme (s : List Char) (pr : List Char × List Char)
    (h : matchUrlAt s = some pr) :
    (dropPrefixChars ((r"https://").data) s).isSome = true ∨
    (dropPrefixChars ((r"http://").data) s).isSome = true := by
  rw [matchUrlAt] at h
  rcases h1 : dropPrefixChars ((r"https://").data) s with _ | rest
  · rcases h2 : dropPrefixChars ((r"http://").data) s with _ | rest2
    · rw [h1, h2] at h
      simp at h
    · right
      rfl
  · left
    rfl

theorem contains_lower_of_scheme (p s : List Char)
    (hlower : lowerStr p = p)
    (h : (dropPrefixChars p s).isSome = true) :
    containsSub p (lowerStr s) = true := by
  rcases hr : dropPrefixChars p s with _ | rest
  · rw [hr] at h
    simp at h
  · have hs : s = p ++ rest := dropPrefixChars_some p s rest hr
    have : lowerStr s = p ++ lowerStr rest := by
      rw [hs, lowerStr, List.map_append, ← lowerStr, ← lowerStr, hlower]
    rw [this]
    exact containsSub_head _ _ (by rw [dropPrefixChars_append]; rfl)

theorem extractUrlsAux_scheme :
    ∀ fuel s, extractUrlsAux fuel s ≠ [] →
      (containsSub ((r"http://").data) (lowerStr s) ||
       containsSub ((r"https://").data) (lowerStr s)) = true := by
  intro fuel
  induction fuel with
  | zero =>
    intro s h
    simp [extractUrlsAux] at h
  | succ n ih =>
    intro s h
    cases s with
    | nil => simp [extractUrlsAux] at h
    | cons c cs =>
      rcases hm : matchUrlAt (c :: cs) with _ | pr
      · rw [extractUrlsAux, hm] at h
        have hcs := ih cs h
        have : lowerStr (c :: cs) = lowerChar c :: lowerStr cs := rfl
        rw [this]
        rcases Bool.or_eq_true_iff.mp hcs with h1 | h1
        · exact Bool.or_eq_true_iff.mpr (Or.inl (containsSub_tail _ _ _ h1))
        · exact Bool.or_eq_true_iff.mpr (Or.inr (containsSub_tail _ _ _ h1))
      · rcases matchUrlAt_scheme _ _ hm with h1 | h1
        · exact Bool.or_eq_true_iff.mpr
            (Or.inr (contains_lower_of_scheme _ _ (by decide) h1))
        · exact Bool.or_eq_true_iff.mpr
            (Or.inl (contains_lower_of_scheme _ _ (by decide) h1))

/-- A message with a disallowed extracted URL necessarily satisfies the
`links` branch guard (the extraction pattern is a subcase of the guard's
substring test). -/
theorem linkGuard_of_hasDisallowed (allowed : List (List Char)) (m : Msg)
    (h : hasDisallowed allowed m = true) : linkGuard m = true := by
  have hne : msgUrls m ≠ [] := by
    intro hnil
    rw [hasDisallowed, hnil] at h
    simp at h
  rw [msgUrls, extractUrls] at hne
  have hcontains := extractUrlsAux_scheme _ _ hne
  have htruthy : textTruthy m = true := by
    rcases hx : m.text with _ | t
    · exfalso
      apply hne
      rw [textChars, hx]
      rfl
    · rcases t with _ | ⟨c, cs⟩
      · exfalso
        apply hne
        rw [textChars, hx]
        rfl
      · rw [textTruthy, hx]
        rfl
  rw [linkGuard, htruthy, Bool.true_and]
  exact hcontains

theorem lockCore_spec (lm lme lst lg lp ll lf pm pst pg pp gd dis pf : Bool)
    (h1 : (ll && gd && !dis) = false) (h2 : dis = true → gd = true) :
    lockCore lm lme lst lg lp ll lf pm pst pg pp gd dis pf =
      lockSpecCore lm lme lst lg lp ll lf pm pst pg pp dis pf := by
  revert h1 h2
  revert lm lme lst lg lp ll lf pm pst pg pp gd dis pf
  decide

/-- C4 counterexample: a *forwarded* message whose text is `HTTP://x`,
with the `links` and `forwards` locks enabled and an empty allowlist.  The
case-insensitive guard of the `links` branch fires (`http://` appears in
the lower-cased text) but the case-sensitive regex extracts no URL, so no
URL is disallowed and the branch reports nothing — and, being an `elif`
chain, the `forwards` lock is never evaluated.  First-match evaluation
over the claim's predicate order would report `forwards`. -/
theorem C4_counterexample :
    lock_checker_violation ⟨false, false, false, false, false, true, true⟩
        [] ⟨false, false, false, false, false, false, 0, false,
            some ((r"HTTP://x").data), true⟩ = none ∧
    checkLockSpec ⟨false, false, false, false, false, true, true⟩
        [] ⟨false, false, false, false, false, false, 0, false,
            some ((r"HTTP://x").data), true⟩ = some Violation.forwards := by
  refine ⟨by decide, by decide⟩

/-- C4 amended: `lock_checker` evaluates the locks in the order
`messages > media > stickers > gifs > polls > links > forwards` and
reports the first enabled lock whose predicate matches — *except* that
the `links` branch is terminal: when the `links` lock is enabled and the
text mentions `http://`/`https://` case-insensitively but no extracted
URL is disallowed, the chain stops and no later lock (`forwards`) is
considered.  Outside that case the first-match description is exact; in
particular a message that is both a sticker and an animation, with both
the `stickers` and `gifs` locks enabled, is reported as `stickers`. -/
theorem C4_lock_precedence (l : LockSet) (a : List (List Char)) (m : Msg) :
    ((l.links && linkGuard m && !(hasDisallowed a m)) = false →
      lock_checker_violation l a m = checkLockSpec l a m) ∧
    (l.messages = false → (l.media && mediaShape m) = false →
      l.stickers = true → m.hasSticker = true →
      lock_checker_violation l a m = some Violation.stickers) := by
  constructor
  · intro h
    rw [lock_checker_violation, checkLockSpec_core]
    exact lockCore_spec l.messages l.media l.stickers l.gifs l.polls
      l.links l.forwards (mediaShape m) (stickerShape m) m.hasAnimation
      m.hasPoll (linkGuard m) (hasDisallowed a m) m.isForward h
      (fun hd => linkGuard_of_hasDisallowed a m hd)
  · intro h1 h2 h3 h4
    simp [lock_checker_violation, lockCore, stickerShape, h1, h2, h3, h4]

theorem C4_lock_precedence_witness :
    lock_checker_violation ⟨false, false, true, true, false, false, false⟩
        [] ⟨false, false, false, false, true, true, 1, false, none, false⟩ =
      checkLockSpec ⟨false, false, true, true, false, false, false⟩
        [] ⟨false, false, false, false, true, true, 1, false, none, false⟩ ∧
    lock_checker_violation ⟨false, false, true, true, false, false, false⟩
        [] ⟨false, false, false, false, true, true, 1, false, none, false⟩ =
      some Violation.stickers :=
  ⟨(C4_lock_precedence ⟨false, false, true, true, false, false, false⟩ []
      ⟨false, false, false, false, true, true, 1, false, none, false⟩).1
      (by decide),
   (C4_lock_precedence ⟨false, false, true, true, false, false, false⟩ []
      ⟨false, false, false, false, true, true, 1, false, none, false⟩).2
      rfl rfl rfl rfl⟩

/-! ## Force subscription (handlers/force_sub.py) -/

inductive MemberStatus
  | member
  | administrator
  | owner
  | left
  | banned
  | restricted
deriving Repr, DecidableEq

/-- `check_subscription`: asks `get_chat_member` for the user's status in
the configured channel and accepts MEMBER, ADMINISTRATOR and OWNER; any
exception (`apiFails`) is caught and the user is treated as subscribed
("Allow if check fails"). -/
def check_subscription (apiFails : Bool) (status : MemberStatus) : Bool :=
  if apiFails then true
  else
    match status with
    | MemberStatus.member => true
    | MemberStatus.administrator => true
    | MemberStatus.owner => true
    | _ => false

/-- Outcome of `force_sub_check` for one message: whether the message was
deleted and whether a join prompt was posted. -/
structure ForceSubResult where
  deleted : Bool
  promptPosted : Bool
deriving Repr, DecidableEq

/-- Resolution of the join-prompt link in `force_sub_check`: `@username`
channels and bare usernames map to a `t.me` link; `-100…` ids require a
`get_chat` call (`getChatFails` models it raising) and a public username
on the channel, otherwise no link is resolvable. -/
def channel_link (ch : List Char) (getChatFails : Bool)
    (chanUsername : Option (List Char)) : Option (List Char) :=
  if (dropPrefixChars ((r"@").data) ch).isSome then
    some ((r"https://t.me/").data ++ ch.drop 1)
  else if (dropPrefixChars ((r"-100").data) ch).isSome then
    if getChatFails then none
    else
      match chanUsername with
      | some u => some ((r"https://t.me/").data ++ u)
      | none => none
  else some ((r"https://t.me/").data ++ ch)

/-- `force_sub_check`: runs only in groups/supergroups; skips the bot
owner and chat admins; skips when force-sub is disabled or no channel is
configured (`channel` is the settings value with the `Config` fallback
already applied); otherwise checks the subscription and, on rejection,
deletes the message (`deleteFails` models the delete raising, which is
swallowed) and posts a join prompt only when a resolvable channel link
exists. -/
def force_sub_check (isGroup isOwner isAdmin enabled : Bool)
    (channel : Option (List Char)) (apiFails : Bool) (status : MemberStatus)
    (getChatFails : Bool) (chanUsername : Option (List Char))
    (deleteFails : Bool) : ForceSubResult :=
  if !isGroup then ⟨false, false⟩
  else if isOwner || isAdmin then ⟨false, false⟩
  else if !enabled then ⟨false, false⟩
  else
    match channel with
    | none => ⟨false, false⟩
    | some ch =>
      if check_subscription apiFails status then ⟨false, false⟩
      else
        match channel_link ch getChatFails chanUsername with
        | some _ => ⟨!deleteFails, true⟩
        | none => ⟨!deleteFails, false⟩

/-- C8: when the membership check raises, `check_subscription` returns
`true` (fail-open) and `force_sub_check` neither deletes the message nor
posts a prompt — for every group flag, channel, member status, link
resolution and delete outcome. -/
theorem C8_force_sub_fail_open (isGroup : Bool)
    (channel : Option (List Char)) (status : MemberStatus)
    (getChatFails : Bool) (chanUsername : Option (List Char))
    (deleteFails : Bool) :
    check_subscription true status = true ∧
    force_sub_check isGroup false false true channel true status
        getChatFails chanUsername deleteFails = ⟨false, false⟩ := by
  refine ⟨rfl, ?_⟩
  cases isGroup
  · rfl
  · cases channel <;> rfl

/-- `lock_checker` with its entry gate: the source skips the check exactly
when `is_user_admin` holds for the sender — the bot owner enjoys no
special treatment in this checker. -/
def lock_checker_run (isAdmin : Bool) (l : LockSet)
    (allowed : List (List Char)) (m : Msg) : Option Violation :=
  if isAdmin then none else lock_checker_violation l allowed m

/-- C6 counterexample: a message from the bot owner who is not a chat
admin.  `lock_checker` and `antiflood_checker` gate only on
`is_user_admin` (utils.py, which consults the Telegram member status and
knows nothing of `Config.OWNER_ID`), so the owner's message runs through
both checkers: with the `messages` lock on it is reported for deletion,
and with antiflood on it is counted and can trigger the flood mute —
contradicting the claim that the owner bypasses every checker.  (Only
`force_sub_check` additionally tests `is_owner`.) -/
theorem C6_counterexample :
    lock_checker_run false ⟨true, false, false, false, false, false, false⟩
        [] ⟨false, false, false, false, false, false, 0, false, none,
            false⟩ = some Violation.messages ∧
    (antiflood_step false true false 1 10 ⟨none, [0]⟩ 0).2 = true := by
  refine ⟨by decide, by decide⟩

/-- C6 amended: a sender for whom `is_user_admin` holds bypasses the
content-lock checker, the flood checker and the force-subscription gate;
the bot owner additionally bypasses only the force-subscription gate —
`lock_checker` and `antiflood_checker` do not consult the owner id, so an
owner who is not a chat admin is not exempt from them. -/
theorem C6_admin_bypass (l : LockSet) (a : List (List Char)) (m : Msg)
    (en opF : Bool) (L : Nat) (W : Int) (st : PerUserState) (now : Int)
    (ig ow adm en2 : Bool) (ch : Option (List Char)) (af : Bool)
    (stt : MemberStatus) (gcf : Bool) (cu : Option (List Char))
    (df : Bool) :
    lock_checker_run true l a m = none ∧
    antiflood_step true en opF L W st now = (st, false) ∧
    force_sub_check ig true adm en2 ch af stt gcf cu df = ⟨false, false⟩ ∧
    force_sub_check ig ow true en2 ch af stt gcf cu df = ⟨false, false⟩ := by
  refine ⟨rfl, rfl, ?_, ?_⟩
  · cases ig <;> rfl
  · cases ig
    · rfl
    · cases ow <;> rfl

/-! ## Concurrent warnings (database.py add_warning + warn_user compare)

Two concurrent `warn_user` invocations for the same (chat, user) key are
modelled as two threads, each executing, in program order:
`update_one` (atomic `$inc`, as MongoDB guarantees for a single document
update), then `find_one` (read the count), then the threshold compare of
`warn_user` with `reset_warnings` on escalation.  A schedule is a list of
thread ids; nothing in the source serializes the three steps. -/

structure ThreadSt where
  pc : Nat
  readVal : Nat
deriving Repr, DecidableEq

structure WarnSys where
  store : Nat
  t0 : ThreadSt
  t1 : ThreadSt
  events : Nat
deriving Repr, DecidableEq

/-- One step of one thread: `pc 0` is the atomic `$inc` update, `pc 1`
the `find_one` read, `pc 2` the `warn_count >= max_warnings` compare of
`warn_user`, which on success performs the action (one escalation event)
and `reset_warnings` (store deleted, count 0). -/
def threadStep (maxW : Nat) (t : ThreadSt) (store events : Nat) :
    ThreadSt × Nat × Nat :=
  match t.pc with
  | 0 => (⟨1, t.readVal⟩, store + 1, events)
  | 1 => (⟨2, store⟩, store, events)
  | 2 =>
    if maxW ≤ t.readVal then (⟨3, t.readVal⟩, 0, events + 1)
    else (⟨3, t.readVal⟩, store, events)
  | _ => (t, store, events)

def schedStep (maxW : Nat) (s : WarnSys) (tid : Bool) : WarnSys :=
  if tid then
    let r := threadStep maxW s.t1 s.store s.events
    ⟨r.2.1, s.t0, r.1, r.2.2⟩
  else
    let r := threadStep maxW s.t0 s.store s.events
    ⟨r.2.1, r.1, s.t1, r.2.2⟩

def runSched (maxW : Nat) : WarnSys → List Bool → WarnSys
  | s, [] => s
  | s, b :: bs => runSched maxW (schedStep maxW s b) bs

/-- Both threads at the start of `warn_user`, the key at count `c`. -/
def initSys (c : Nat) : WarnSys := ⟨c, ⟨0, 0⟩, ⟨0, 0⟩, 0⟩

/-- C9 counterexample: `maxWarnings = 3`, key at count `2 = max − 1`, two
concurrent `warn_user` calls under the complete schedule
update₀, update₁, read₀, read₁, compare₀, compare₁.  Both reads return 4,
both compares see `4 ≥ 3`, and *two* escalation events are produced — the
increment and the compare are not a single atomic unit (the count is read
back by a separate `find_one`), contradicting the claim of exactly one
escalation. -/
theorem C9_counterexample :
    (runSched 3 (initSys 2)
        [false, true, false, true, false, true]).events = 2 ∧
    (runSched 3 (initSys 2)
        [false, true, false, true, false, true]).store = 0 := by
  refine ⟨by decide, by decide⟩

/-- C9 amended: nothing in `add_warning` serializes increment-and-compare.
When the two calls happen to run back to back (thread 0 completes before
thread 1 starts), exactly one escalation is produced for `maxWarnings =
k + 2 ≥ 2`; but under the interleaved schedule both threads read a count
`≥ max` and two escalations are produced. -/
theorem C9_concurrent_warnings (k : Nat) :
    (runSched (k + 2) (initSys (k + 1))
        [false, false, false, true, true, true]).events = 1 ∧
    (runSched (k + 2) (initSys (k + 1))
        [false, true, false, true, false, true]).events = 2 := by
  have hyes : ((k + 2 ≤ k + 2) = True) := eq_true (Nat.le_refl _)
  have hyes3 : ((k + 2 ≤ k + 3) = True) := eq_true (by omega)
  have hno : ((k + 2 ≤ 1) = False) := eq_false (by omega)
  constructor
  · have e1 : schedStep (k + 2) (initSys (k + 1)) false =
        ⟨k + 2, ⟨1, 0⟩, ⟨0, 0⟩, 0⟩ := rfl
    have e2 : schedStep (k + 2) ⟨k + 2, ⟨1, 0⟩, ⟨0, 0⟩, 0⟩ false =
        ⟨k + 2, ⟨2, k + 2⟩, ⟨0, 0⟩, 0⟩ := rfl
    have e3 : schedStep (k + 2) ⟨k + 2, ⟨2, k + 2⟩, ⟨0, 0⟩, 0⟩ false =
        ⟨0, ⟨3, k + 2⟩, ⟨0, 0⟩, 1⟩ := by
      simp [schedStep, threadStep, hyes]
    have e4 : schedStep (k + 2) ⟨0, ⟨3, k + 2⟩, ⟨0, 0⟩, 1⟩ true =
        ⟨1, ⟨3, k + 2⟩, ⟨1, 0⟩, 1⟩ := rfl
    have e5 : schedStep (k + 2) ⟨1, ⟨3, k + 2⟩, ⟨1, 0⟩, 1⟩ true =
        ⟨1, ⟨3, k + 2⟩, ⟨2, 1⟩, 1⟩ := rfl
    have e6 : schedStep (k + 2) ⟨1, ⟨3, k + 2⟩, ⟨2, 1⟩, 1⟩ true =
        ⟨1, ⟨3, k + 2⟩, ⟨3, 1⟩, 1⟩ := by
      simp [schedStep, threadStep, hno]
    simp only [runSched]
    rw [e1, e2, e3, e4, e5, e6]
  · have a1 : schedStep (k + 2) (initSys (k + 1)) false =
        ⟨k + 2, ⟨1, 0⟩, ⟨0, 0⟩, 0⟩ := rfl
    have a2 : schedStep (k + 2) ⟨k + 2, ⟨1, 0⟩, ⟨0, 0⟩, 0⟩ true =
        ⟨k + 3, ⟨1, 0⟩, ⟨1, 0⟩, 0⟩ := rfl
    have a3 : schedStep (k + 2) ⟨k + 3, ⟨1, 0⟩, ⟨1, 0⟩, 0⟩ false =
        ⟨k + 3, ⟨2, k + 3⟩, ⟨1, 0⟩, 0⟩ := rfl
    have a4 : schedStep (k + 2) ⟨k + 3, ⟨2, k + 3⟩, ⟨1, 0⟩, 0⟩ true =
        ⟨k + 3, ⟨2, k + 3⟩, ⟨2, k + 3⟩, 0⟩ := rfl
    have a5 : schedStep (k + 2) ⟨k + 3, ⟨2, k + 3⟩, ⟨2, k + 3⟩, 0⟩ false =
        ⟨0, ⟨3, k + 3⟩, ⟨2, k + 3⟩, 1⟩ := by
      simp [schedStep, threadStep, hyes3]
    have a6 : schedStep (k + 2) ⟨0, ⟨3, k + 3⟩, ⟨2, k + 3⟩, 1⟩ true =
        ⟨0, ⟨3, k + 3⟩, ⟨3, k + 3⟩, 2⟩ := by
      simp [schedStep, threadStep, hyes3]
    simp only [runSched]
    rw [a1, a2, a3, a4, a5, a6]
